import Mathlib

/-!
Verification development for the keyword-monitor plugin
(`src/__init__.py` of yyl0124/keyword-monitor).

The Python source is shallowly embedded: Python strings are modelled as
lists of characters (`Str`), Python floats as rationals (`ℚ`), Python ints
as integers (`ℤ`), and the external collaborators (the regex engine, the
persistent key-value store, the outbound send primitive, the wall clock)
are modelled as explicit parameters/oracles.  Fallible Python code is
modelled in `Except`/`Option`.
-/

namespace KeywordMonitor

/-- Python strings are sequences of code points; we model them as lists of
characters. -/
abbrev Str := List Char

/-- The whitespace test used by Python `str.strip()` and no-argument
`str.split()`.  (Python strips the full Unicode whitespace class; the
claims only exercise ASCII whitespace, which `Char.isWhitespace` covers.) -/
def isWS (c : Char) : Bool := c.isWhitespace

/-- Prepend a character to the first group of a split result. -/
def consHead (c : Char) : List Str → List Str
  | [] => [[c]]
  | g :: gs => (c :: g) :: gs

/-- Python `s.split(sep)` for a one-character separator `sep`:
`"".split(sep) = [""]`, and every occurrence of `sep` starts a new
(possibly empty) segment. -/
def splitOnChar (sep : Char) : Str → List Str
  | [] => [[]]
  | c :: cs =>
    if c = sep then [] :: splitOnChar sep cs else consHead c (splitOnChar sep cs)

/-- Drop leading whitespace (the left half of Python `str.strip()`). -/
def trimL (l : Str) : Str := l.dropWhile isWS

/-- Drop trailing whitespace (the right half of Python `str.strip()`). -/
def trimR : Str → Str
  | [] => []
  | c :: cs => if isWS c ∧ trimR cs = [] then [] else c :: trimR cs

/-- Python `str.strip()`: drop leading and trailing whitespace. -/
def trimChars (l : Str) : Str := trimL (trimR l)

/-- Apply `f` to the last element of a list (identity on `[]`). -/
def modLast (f : Str → Str) : List Str → List Str
  | [] => []
  | [g] => [f g]
  | g :: gs => g :: modLast f gs

/-- Join segments with the separator character; inverse of `splitOnChar`. -/
def joinSep (sep : Char) : List Str → Str
  | [] => []
  | [g] => g
  | g :: gs => g ++ sep :: joinSep sep gs

/-- The keyword extraction of `parse_rule` (src/__init__.py line 237):
split on `','`, strip each piece, drop the pieces that are empty after
stripping. -/
def ruleKeywords (seg : Str) : List Str :=
  ((splitOnChar ',' seg).map trimChars).filter (fun kw => kw ≠ [])

/-- The body of `parse_rule` after the split (src/__init__.py lines
227-241): require exactly 3 segments (`len(parts) != 3` → `None`), strip
each segment, require all three non-empty (`if not all([...])` → `None`),
split the middle on `','` into stripped non-empty keywords, require at
least one. -/
def parseParts : List Str → Option (Str × List Str × Str)
  | [p0, p1, p2] =>
    if trimChars p0 = [] ∨ trimChars p1 = [] ∨ trimChars p2 = [] then none
    else if ruleKeywords (trimChars p1) = [] then none
    else some (trimChars p0, ruleKeywords (trimChars p1), trimChars p2)
  | _ => none

/-- Embeds `parse_rule` (src/__init__.py lines 220-241):
`parts = rule_str.strip().split('|')` followed by `parseParts`. -/
def parse_rule (rule_str : Str) : Option (Str × List Str × Str) :=
  parseParts (splitOnChar '|' (trimChars rule_str))

/-- Modelled from the spec's wording for `RuleCodec.parse` (claim C7),
at the segment level: exactly 3 segments, each non-empty after trimming,
plus a non-empty keyword list obtained by splitting the (raw) middle
segment on `','`, trimming each piece and dropping empties; on success the
three logical fields round-trip the trimmed segments. -/
def specSegs : List Str → Option (Str × List Str × Str)
  | [a, b, c] =>
    if trimChars a = [] ∨ trimChars b = [] ∨ trimChars c = [] then none
    else if ruleKeywords b = [] then none
    else some (trimChars a, ruleKeywords b, trimChars c)
  | _ => none

/-- Modelled from the spec's wording for `RuleCodec.parse` (claim C7):
split the raw rule text on `'|'` (no pre-stripping of the whole string)
and apply the well-formedness conditions of the claim. -/
def specParse (rule_str : Str) : Option (Str × List Str × Str) :=
  specSegs (splitOnChar '|' rule_str)


/-! ## Matcher: `check_keywords` (src/__init__.py lines 260-316) -/

/-- Does `kw` occur at the head of `text`? (helper for Python's `in`). -/
def startsWith : Str → Str → Bool
  | _, [] => true
  | [], _ :: _ => false
  | c :: cs, k :: ks => c = k && startsWith cs ks

/-- Python's substring operator `kw in text`: `kw` occurs contiguously
somewhere in `text`. -/
def strContains (text kw : Str) : Bool :=
  match text with
  | [] => kw.isEmpty
  | _ :: rest => startsWith text kw || strContains rest kw

/-- Python no-argument `text.split()`: split on runs of whitespace,
producing no empty tokens; `acc` holds the reversed current word. -/
def pyWordsAux (acc : Str) : Str → List Str
  | [] => if acc = [] then [] else [acc.reverse]
  | c :: cs =>
    if isWS c then
      (if acc = [] then pyWordsAux [] cs else acc.reverse :: pyWordsAux [] cs)
    else pyWordsAux (c :: acc) cs

/-- Python `text.split()` (used by exact mode, src line 278). -/
def pyWords (text : Str) : List Str := pyWordsAux [] text

/-- Observable behaviour of one `pattern.search(text)` call of the
external regex engine: whether a match is found, the wall-clock seconds an
uninterrupted search would take, and whether the call raises a runtime
error. -/
structure SearchOutcome where
  found : Bool
  time : ℚ
  raises : Bool

/-- Oracle for the external `re` module: `valid kw` is the outcome of
`validate_regex` (src lines 244-257: does `re.compile(kw)` succeed), and
`search kw text` the behaviour of `re.compile(kw).search(text)`. -/
structure RegexModel where
  valid : Str → Bool
  search : Str → Str → SearchOutcome

/-- Python exceptions the embedded code can raise. -/
inductive PyExc
  | timeoutError
  | runtimeError
  | valueError
  | keyError
deriving DecidableEq

instance {ε α : Type} [DecidableEq ε] [DecidableEq α] :
    DecidableEq (Except ε α) := fun x y =>
  match x, y with
  | .ok a, .ok b => decidable_of_iff (a = b) (by simp)
  | .ok _, .error _ => isFalse (by simp)
  | .error _, .ok _ => isFalse (by simp)
  | .error e, .error f => decidable_of_iff (e = f) (by simp)

/-- Python `int()` on a float: truncation toward zero. -/
def pyIntTrunc (q : ℚ) : ℤ := if q < 0 then -⌊-q⌋ else ⌊q⌋

/-- The argument the source passes to `signal.alarm` (src line 298):
`int(timeout)`.  Per the Python `signal` module, `signal.alarm(n)` with
`n > 0` schedules SIGALRM after `n` seconds, while `signal.alarm(0)`
cancels any pending alarm and schedules none. -/
def alarmSecs (timeout : ℚ) : ℕ := (pyIntTrunc timeout).toNat

/-- One iteration of the keyword loop of `check_keywords` (src lines
272-307), before the per-iteration try/except: `.ok (some kw)` is an early
`return keyword`, `.ok none` falls through to the next keyword, `.error e`
means the iteration raised `e`.  Mode 0 is fuzzy (`keyword in text`),
mode 1 exact (`keyword in text.split()`), mode 2 regex: an invalid
pattern is skipped (logged warning); the iteration ends in `TimeoutError`
when an alarm was actually scheduled (`alarmSecs timeout ≠ 0`) and the
search needs at least that many seconds; otherwise the search's own
runtime error, if any, is raised; otherwise the found/not-found result
stands.  (CPython delivers the SIGALRM handler only once the C-level
search has returned, so this describes the iteration's eventual outcome,
not its elapsed time — see `regexKwElapsed`.)  Any other mode matches no
branch and falls through. -/
def kwBody (M : RegexModel) (text kw : Str) (mode : ℤ) (timeout : ℚ) :
    Except PyExc (Option Str) :=
  if mode = 0 then .ok (if strContains text kw then some kw else none)
  else if mode = 1 then .ok (if (pyWords text).contains kw then some kw else none)
  else if mode = 2 then
    if M.valid kw = false then .ok none
    else if alarmSecs timeout ≠ 0 ∧ (alarmSecs timeout : ℚ) ≤ (M.search kw text).time
    then .error .timeoutError
    else if (M.search kw text).raises then .error .runtimeError
    else .ok (if (M.search kw text).found then some kw else none)
  else .ok none

/-- Embeds `check_keywords` (src lines 260-316): iterate the keywords in
definition order; a matching keyword is returned immediately; an exception
raised by an iteration (`TimeoutError` or any other) is caught by the
per-iteration try/except and treated as "no match, continue". -/
def check_keywords (M : RegexModel) (text : Str) (keywords : List Str)
    (mode : ℤ) (timeout : ℚ) : Option Str :=
  match keywords with
  | [] => none
  | kw :: rest =>
    match kwBody M text kw mode timeout with
    | .ok (some k) => some k
    | .ok none => check_keywords M text rest mode timeout
    | .error _ => check_keywords M text rest mode timeout

/-- Wall-clock seconds spent inside `pattern.search` for one keyword in
regex mode.  CPython executes Python-level signal handlers only between
bytecode instructions, and the `signal` module documentation names regex
matching on a large body of text as the canonical C-level computation
that "may run uninterrupted for an arbitrary amount of time, regardless
of any signals received".  So whatever `signal.alarm` was set to,
`pattern.search` runs to completion and the elapsed time is the full
search time; the pending SIGALRM handler (and hence the `TimeoutError`)
fires only once the search has returned.  An invalid pattern is never
searched. -/
def regexKwElapsed (M : RegexModel) (text kw : Str) : ℚ :=
  if M.valid kw = false then 0 else (M.search kw text).time

/-! ## ThrottleStore (src/__init__.py lines 319-327) and dispatcher
helpers -/

/-- digits → number, e.g. `natOfDigits "103" = 103`. -/
def natOfDigits (l : Str) : ℕ := l.foldl (fun a c => a * 10 + (c.toNat - 48)) 0

def isDigit (c : Char) : Bool := '0' ≤ c && c ≤ '9'

/-- The fragment of Python `float(s)` exercised by the plugin's store
values: optional minus sign, then `digits`, `digits.digits`, `digits.` or
`.digits`.  (Python's `float` also accepts exponents, `inf`/`nan` and
surrounding whitespace; every value written by `set_last_notify_time`
stays inside this fragment, and a string such as `"abc"` is rejected —
`ValueError` — by both.)  `none` models the `ValueError`. -/
def floatParseCore (s : Str) : Option ℚ :=
  let ip := s.takeWhile isDigit
  let rest := s.dropWhile isDigit
  match rest with
  | [] => if ip = [] then none else some (natOfDigits ip)
  | c :: frac =>
    if c = '.' ∧ frac.all isDigit ∧ (ip ≠ [] ∨ frac ≠ []) then
      some ((natOfDigits ip : ℚ) + (natOfDigits frac : ℚ) / (10 : ℚ) ^ frac.length)
    else none

/-- Python `float(s)` on the modelled fragment (see `floatParseCore`). -/
def floatParse (s : Str) : Option ℚ :=
  match s with
  | '-' :: t => (floatParseCore t).map (fun q => -q)
  | _ => floatParseCore s

/-- Decimal digits of a fractional part `r/d` (`0 ≤ r < d`), with fuel. -/
def fracDigits : ℕ → ℕ → ℕ → Str
  | 0, _, _ => []
  | fuel + 1, r, d =>
    if r = 0 then [] else Char.ofNat (48 + r * 10 / d) :: fracDigits fuel (r * 10 % d) d

/-- Models Python `str()` on the float timestamps the plugin stores: the
decimal expansion `intpart.fracpart`, `".0"` for integral values, a
leading `'-'` when negative.  (CPython prints the shortest decimal that
round-trips the binary float; on the terminating decimals used here the
two agree.) -/
def pyFloatStr (q : ℚ) : Str :=
  let n := q.num.natAbs
  let d := q.den
  let digits := Nat.toDigits 10 (n / d) ++
    ('.' :: (if n % d = 0 then ['0'] else fracDigits 40 (n % d) d))
  if q.num < 0 then '-' :: digits else digits

/-- The store key for a rule's last-notify time (src lines 321 and 327). -/
def notifyTimeKey (rule_key : Str) : Str := "notify_time_".data ++ rule_key

/-- Embeds `get_last_notify_time` (src lines 319-322):
`float(time_str) if time_str else 0`.  An absent key or empty string
(falsy) yields `0`; a non-empty string goes through `float`, whose
`ValueError` on an unparsable value propagates (`.error`). -/
def get_last_notify_time (store : Str → Option Str) (rule_key : Str) :
    Except PyExc ℚ :=
  match store (notifyTimeKey rule_key) with
  | none => .ok 0
  | some s =>
    if s = [] then .ok 0
    else
      match floatParse s with
      | some q => .ok q
      | none => .error .valueError

/-- Embeds `set_last_notify_time` (src lines 325-327): store
`str(timestamp)` under the rule's key. -/
def set_last_notify_time (store : Str → Option Str) (rule_key : Str)
    (timestamp : ℚ) : Str → Option Str :=
  fun k => if k = notifyTimeKey rule_key then some (pyFloatStr timestamp) else store k

/-- The throttle key `f"{monitor_channel}_{notify_channel}"`
(src line 376; same derivation at line 456). -/
def rule_key (monitor notify : Str) : Str := monitor ++ '_' :: notify

/-- The throttle gate of the dispatcher (src line 380): a notification is
allowed iff NOT `current_time - last_time < NOTIFY_INTERVAL`. -/
def shouldFire (last now : ℚ) (interval : ℤ) : Bool :=
  !decide (now - last < (interval : ℚ))

/-! ## NotificationComposer: `str.format` (src lines 386-392) -/

def lbrace : Char := Char.ofNat 123

def rbrace : Char := Char.ofNat 125

def lookupField : List (Str × Str) → Str → Option Str
  | [], _ => none
  | (k, v) :: rest, name => if k = name then some v else lookupField rest name

/-- Scanner for Python `str.format` with keyword arguments, restricted to
the plain named placeholders the plugin's template documents: literal text
is copied, a braced name is replaced by the matching field's value, an
unknown field name raises `KeyError` and an unterminated opening brace
raises `ValueError` (both modelled as `none`; doubled-brace escapes and
format specs are outside the documented template language). -/
def fmtGo (fields : List (Str × Str)) (inPh : Bool) (nameAcc : Str) :
    Str → Option Str
  | [] => if inPh then none else some []
  | c :: rest =>
    if inPh then
      if c = rbrace then
        match lookupField fields nameAcc.reverse with
        | none => none
        | some v => (fmtGo fields false [] rest).map (fun t => v ++ t)
      else fmtGo fields true (c :: nameAcc) rest
    else
      if c = lbrace then fmtGo fields true [] rest
      else (fmtGo fields false [] rest).map (fun t => c :: t)

/-- Python `template.format(**fields)` (src lines 386-392) in `Except`. -/
def pyFormat (fields : List (Str × Str)) (template : Str) : Except PyExc Str :=
  match fmtGo fields false [] template with
  | none => .error .keyError
  | some s => .ok s

/-- Python `x or default` for an optional string (`None` and the empty
string are falsy), as in `_ctx.channel_name or "未知频道"` (src line 387). -/
def pyOr (s : Option Str) (dflt : Str) : Str :=
  match s with
  | none => dflt
  | some v => if v = [] then dflt else v

/-! ## Dispatcher: `handle_user_message` (src lines 332-414) -/

/-- The plugin configuration `KeywordMonitorConfig` (src lines 139-183). -/
structure Config where
  MONITOR_RULES : List Str
  MATCH_MODE : ℤ
  NOTIFY_TEMPLATE : Str
  NOTIFY_INTERVAL : ℤ
  REGEX_TIMEOUT : ℚ
  ENABLE_DEBUG : Bool

/-- The message-context fields the handler reads (`_ctx.chat_key`,
`_ctx.channel_name`, `_ctx.channel_id`). -/
structure Ctx where
  chat_key : Str
  channel_name : Option Str
  channel_id : Option Str

/-- Dispatcher-visible external state: the persistent key-value store and
the list of successfully delivered notifications `(destination, text)`. -/
structure DState where
  store : Str → Option Str
  sent : List (Str × Str)

/-- One iteration of the rule loop of `handle_user_message` (src lines
347-408), in `Except`: parse the rule (skip on failure), skip when the
rule's monitored channel differs from the message's channel, run
`check_keywords` (skip on no match), read the throttle record (a
`ValueError` from the stored string propagates), skip when still inside
the notify interval, render the template (a `KeyError` propagates), then
the inner try: on send success append to `sent` and update the throttle
record, on send failure (caught by the inner `except`) change nothing. -/
def ruleStep (M : RegexModel) (cfg : Config) (sendOk : Str → Str → Bool)
    (ctx : Ctx) (msgText : Str) (now : ℚ) (nowStr : Str)
    (st : DState) (rule_str : Str) : Except PyExc DState :=
  match parse_rule rule_str with
  | none => .ok st
  | some (monitor_channel, keywords, notify_channel) =>
    if monitor_channel ≠ ctx.chat_key then .ok st
    else
      match check_keywords M msgText keywords cfg.MATCH_MODE cfg.REGEX_TIMEOUT with
      | none => .ok st
      | some matched_keyword =>
        match get_last_notify_time st.store (rule_key monitor_channel notify_channel) with
        | .error e => .error e
        | .ok last_time =>
          if now - last_time < (cfg.NOTIFY_INTERVAL : ℚ) then .ok st
          else
            match pyFormat
                [("channel_name".data, pyOr ctx.channel_name "未知频道".data),
                 ("channel_id".data, pyOr ctx.channel_id "未知".data),
                 ("keyword".data, matched_keyword),
                 ("content".data, msgText.take 200),
                 ("time".data, nowStr)] cfg.NOTIFY_TEMPLATE with
            | .error e => .error e
            | .ok notify_text =>
              if sendOk notify_channel notify_text then
                .ok ⟨set_last_notify_time st.store
                       (rule_key monitor_channel notify_channel) now,
                     st.sent ++ [(notify_channel, notify_text)]⟩
              else .ok st

/-- The rule loop over `config.MONITOR_RULES`: stops at the first uncaught
exception (then swallowed by the outer try/except, flag `true`), otherwise
threads the state through every rule. -/
def runRules (M : RegexModel) (cfg : Config) (sendOk : Str → Str → Bool)
    (ctx : Ctx) (msgText : Str) (now : ℚ) (nowStr : Str) :
    List Str → DState → DState × Bool
  | [], st => (st, false)
  | r :: rest, st =>
    match ruleStep M cfg sendOk ctx msgText now nowStr st r with
    | .ok st2 => runRules M cfg sendOk ctx msgText now nowStr rest st2
    | .error _ => (st, true)

/-- Embeds `handle_user_message` (src lines 332-414): a falsy chat key is
an early `return None`; otherwise the rule loop runs over the statically
configured `MONITOR_RULES` under the outer try/except (an escaped
exception is logged and swallowed), and the handler returns `None`
("do not block the message") in every case. -/
def handle_user_message (M : RegexModel) (cfg : Config)
    (sendOk : Str → Str → Bool) (ctx : Ctx) (msgText : Str) (now : ℚ)
    (nowStr : Str) (store : Str → Option Str) : Option Unit × DState :=
  if ctx.chat_key = [] then (none, ⟨store, []⟩)
  else
    (none, (runRules M cfg sendOk ctx msgText now nowStr cfg.MONITOR_RULES ⟨store, []⟩).1)

/-! ## Temporary rules: `add_temp_monitor_rule` (src lines 518-561) -/

/-- Result of `add_temp_monitor_rule`, abstracting the returned message
strings (src lines 537, 544, 555, 561). -/
inductive AddResult
  | ok
  | emptyKeywords
  | invalidPatterns
  | alreadyExists
deriving DecidableEq

/-- The composed rule text
`f"{monitor_channel}|{keywords}|{notify_channel}"` (src line 551), built
from the raw keyword argument. -/
def composedRule (monitor keywords notify : Str) : Str :=
  monitor ++ '|' :: (keywords ++ '|' :: notify)

/-- Embeds `add_temp_monitor_rule` (src lines 518-561) over the decoded
temporary-rule list (the source keeps this list JSON-encoded under the
store key `"temp_rules"`; the slot is modelled by its decoded value,
relying on the external store/JSON round-trip).  `valid` is the
`validate_regex` oracle; the regex-mode validation mirrors lines 540-544,
the duplicate check line 554, the append lines 557-558. -/
def add_temp_monitor_rule (valid : Str → Bool) (matchMode : ℤ)
    (tempRules : List Str) (monitor keywords notify : Str) :
    AddResult × List Str :=
  let keyword_list := ruleKeywords keywords
  if keyword_list = [] then (.emptyKeywords, tempRules)
  else
    let invalid_patterns :=
      if matchMode = 2 then keyword_list.filter (fun kw => valid kw = false) else []
    if invalid_patterns ≠ [] then (.invalidPatterns, tempRules)
    else
      let new_rule := composedRule monitor keywords notify
      if new_rule ∈ tempRules then (.alreadyExists, tempRules)
      else (.ok, tempRules ++ [new_rule])

/-! ## Concrete instances used by claim theorems and witnesses -/

/-- A trivial regex oracle: every pattern valid, every search instant and
unsuccessful. -/
def Mnone : RegexModel := ⟨fun _ => true, fun _ _ => ⟨false, 0, false⟩⟩

/-- A regex oracle in which exactly the pattern `"("` fails to compile
and every search of a valid pattern reports an instant match. -/
def Mbad : RegexModel :=
  ⟨fun kw => decide (kw ≠ "(".data), fun _ _ => ⟨true, 0, false⟩⟩

/-- A pathological regex oracle: every pattern compiles, every search
needs 10^6 seconds of backtracking and finds nothing. -/
def Mpatho : RegexModel := ⟨fun _ => true, fun _ _ => ⟨false, 1000000, false⟩⟩

/-- A store holding the unparsable value `"abc"` under throttle key `"a"`. -/
def storeBad : Str → Option Str :=
  fun k => if k = notifyTimeKey "a".data then some "abc".data else none

/-- A store holding the unparsable value `"abc"` under the throttle key of
the rule `chatA → chatB`. -/
def storeBadAB : Str → Option Str :=
  fun k =>
    if k = notifyTimeKey (rule_key "chatA".data "chatB".data)
    then some "abc".data else none

/-- A store holding (only) the JSON-encoded temporary-rule list that
`add_temp_monitor_rule` writes under the fixed key `"temp_rules"`. -/
def storeWithTemp : Str → Option Str :=
  fun k =>
    if k = "temp_rules".data
    then some "[\"chatA|hello|chatB\"]".data else none

/-- A configuration with one static rule `chatA → chatB` on keyword
`hello`, fuzzy mode, 60 s interval, a placeholder-free template. -/
def cfgAB : Config := ⟨["chatA|hello|chatB".data], 0, "m".data, 60, 1, false⟩

/-- A configuration with no static rules (fuzzy mode, 60 s interval). -/
def cfgNoStatic : Config := ⟨[], 0, "m".data, 60, 1, false⟩

/-- A message context on channel `chatA` with unknown name/id. -/
def ctxA : Ctx := ⟨"chatA".data, none, none⟩

/-- The empty dispatcher state. -/
def st0 : DState := ⟨fun _ => none, []⟩

/-- The result of `add_temp_monitor_rule(chatA, "hello", chatB)` on an
empty temporary-rule list in fuzzy mode. -/
def tempAdded : AddResult × List Str :=
  add_temp_monitor_rule (fun _ => true) 0 [] "chatA".data "hello".data "chatB".data

/-! ## Lemmas and claim theorems -/

theorem splitOnChar_nil (sep : Char) : splitOnChar sep [] = [[]] := rfl

theorem splitOnChar_cons (sep c : Char) (cs : Str) :
    splitOnChar sep (c :: cs) =
      if c = sep then [] :: splitOnChar sep cs else consHead c (splitOnChar sep cs) := rfl

theorem trimR_cons (c : Char) (cs : Str) :
    trimR (c :: cs) = if isWS c ∧ trimR cs = [] then [] else c :: trimR cs := rfl

theorem modLast_nil (f : Str → Str) : modLast f [] = [] := rfl

theorem modLast_single (f : Str → Str) (g : Str) : modLast f [g] = [f g] := rfl

theorem modLast_cons₂ (f : Str → Str) (g g2 : Str) (gs : List Str) :
    modLast f (g :: g2 :: gs) = g :: modLast f (g2 :: gs) := rfl

theorem splitOnChar_ne_nil (sep : Char) (l : Str) : splitOnChar sep l ≠ [] := by
  induction l with
  | nil => simp [splitOnChar]
  | cons c cs ih =>
    rw [splitOnChar]
    split
    · simp
    · rcases h : splitOnChar sep cs with _ | ⟨g, gs⟩
      · exact absurd h ih
      · simp [consHead]

theorem joinSep_splitOnChar (sep : Char) (l : Str) :
    joinSep sep (splitOnChar sep l) = l := by
  induction l with
  | nil => rfl
  | cons c cs ih =>
    rw [splitOnChar]
    rcases h : splitOnChar sep cs with _ | ⟨g, gs⟩
    · exact absurd h (splitOnChar_ne_nil sep cs)
    · rw [h] at ih
      split
      · rename_i hc
        subst hc
        simpa [joinSep] using ih
      · rcases gs with _ | ⟨g2, gs2⟩
        · simpa [consHead, joinSep] using ih
        · simp only [consHead, joinSep] at ih ⊢
          simpa using ih

theorem splitOnChar_no_sep (sep : Char) (l : Str) (h : sep ∉ l) :
    splitOnChar sep l = [l] := by
  induction l with
  | nil => rfl
  | cons c cs ih =>
    rw [splitOnChar]
    have hc : c ≠ sep := fun e => h (e ▸ List.mem_cons_self c cs)
    rw [if_neg hc, ih (fun hm => h (List.mem_cons_of_mem c hm)), consHead]

theorem trimR_eq_nil_iff (l : Str) : trimR l = [] ↔ ∀ c ∈ l, isWS c := by
  induction l with
  | nil => simp [trimR]
  | cons c cs ih =>
    rw [trimR]
    split
    · rename_i hcond
      simp only [List.mem_cons]
      constructor
      · intro _ x hx
        rcases hx with rfl | hx
        · exact hcond.1
        · exact (ih.mp hcond.2) x hx
      · intro _
        trivial
    · rename_i hcond
      constructor
      · intro hk
        exact absurd hk (List.cons_ne_nil c _)
      · intro hall
        exact absurd ⟨hall c (List.mem_cons_self c cs), ih.mpr fun x hx => hall x (List.mem_cons_of_mem c hx)⟩ hcond

theorem trimL_eq_nil_of_all_ws (l : Str) (h : ∀ c ∈ l, isWS c) : trimL l = [] := by
  induction l with
  | nil => rfl
  | cons c cs ih =>
    rw [trimL, List.dropWhile_cons, if_pos (h c (List.mem_cons_self c cs))]
    exact ih fun x hx => h x (List.mem_cons_of_mem c hx)

theorem splitOnChar_trimL (sep : Char) (l : Str) (hsep : isWS sep = false) :
    splitOnChar sep (trimL l) = (splitOnChar sep l).modifyHead trimL := by
  induction l with
  | nil => rfl
  | cons c cs ih =>
    by_cases hw : isWS c
    · have hc : c ≠ sep := fun e => by rw [e, hsep] at hw; exact Bool.false_ne_true hw
      rw [trimL, List.dropWhile_cons, if_pos hw]
      rw [splitOnChar, if_neg hc]
      rcases h : splitOnChar sep cs with _ | ⟨g, gs⟩
      · exact absurd h (splitOnChar_ne_nil sep cs)
      · rw [h] at ih
        rw [consHead, List.modifyHead]
        rw [trimL] at ih
        rw [ih, List.modifyHead]
        have : trimL (c :: g) = trimL g := by
          rw [trimL, List.dropWhile_cons, if_pos hw]; rfl
        rw [this]
    · rw [trimL, List.dropWhile_cons, if_neg (by simpa using hw)]
      rw [splitOnChar]
      split
      · rw [List.modifyHead]
        rfl
      · rcases h : splitOnChar sep cs with _ | ⟨g, gs⟩
        · exact absurd h (splitOnChar_ne_nil sep cs)
        · rw [consHead, List.modifyHead]
          have : trimL (c :: g) = c :: g := by
            rw [trimL, List.dropWhile_cons, if_neg (by simpa using hw)]
          rw [this]

theorem splitOnChar_eq_single (sep : Char) (l g : Str)
    (h : splitOnChar sep l = [g]) : l = g := by
  have := joinSep_splitOnChar sep l
  rw [h] at this
  exact this.symm

theorem splitOnChar_trimR (sep : Char) (l : Str) (hsep : isWS sep = false) :
    splitOnChar sep (trimR l) = modLast trimR (splitOnChar sep l) := by
  induction l with
  | nil => rfl
  | cons c cs ih =>
    by_cases hA : isWS c ∧ trimR cs = []
    · have hallws : ∀ x ∈ cs, isWS x := (trimR_eq_nil_iff cs).mp hA.2
      have hnosep : sep ∉ cs := fun hm => by
        have := hallws sep hm
        rw [hsep] at this
        exact Bool.false_ne_true this
      have hc : c ≠ sep := fun e => by
        rw [e, hsep] at hA
        exact Bool.false_ne_true hA.1
      have h1 : splitOnChar sep (c :: cs) = [c :: cs] := by
        rw [splitOnChar_cons, if_neg hc, splitOnChar_no_sep sep cs hnosep, consHead]
      have h2 : trimR (c :: cs) = [] := by rw [trimR_cons, if_pos hA]
      rw [h1, h2, modLast_single, h2, splitOnChar_nil]
    · have h2 : trimR (c :: cs) = c :: trimR cs := by rw [trimR_cons, if_neg hA]
      rw [h2]
      by_cases hc : c = sep
      · subst hc
        rw [splitOnChar_cons, if_pos rfl, splitOnChar_cons, if_pos rfl]
        rcases h : splitOnChar c cs with _ | ⟨g, gs⟩
        · exact absurd h (splitOnChar_ne_nil c cs)
        · rw [h] at ih
          rw [ih, modLast_cons₂]
      · rw [splitOnChar_cons, if_neg hc, splitOnChar_cons, if_neg hc]
        rw [ih]
        rcases h : splitOnChar sep cs with _ | ⟨g, gs⟩
        · exact absurd h (splitOnChar_ne_nil sep cs)
        · rcases gs with _ | ⟨g2, gs2⟩
          · have hcs : cs = g := splitOnChar_eq_single sep cs g h
            subst hcs
            rw [modLast_single, show consHead c [trimR cs] = [c :: trimR cs] from rfl,
              show consHead c [cs] = [c :: cs] from rfl, modLast_single, trimR_cons, if_neg hA]
          · rw [modLast_cons₂, consHead, consHead, modLast_cons₂]

theorem trimL_trimL (l : Str) : trimL (trimL l) = trimL l := by
  induction l with
  | nil => rfl
  | cons c cs ih =>
    by_cases hw : isWS c
    · have h : trimL (c :: cs) = trimL cs := by
        rw [trimL, List.dropWhile_cons, if_pos hw]; rfl
      rw [h, ih]
    · have h : trimL (c :: cs) = c :: cs := by
        rw [trimL, List.dropWhile_cons, if_neg (by simpa using hw)]
      rw [h]
      exact h

theorem trimR_trimR (l : Str) : trimR (trimR l) = trimR l := by
  induction l with
  | nil => rfl
  | cons c cs ih =>
    by_cases hA : isWS c ∧ trimR cs = []
    · rw [trimR_cons, if_pos hA]
      rfl
    · rw [trimR_cons, if_neg hA, trimR_cons, ih, if_neg hA]

theorem trimL_trimR_comm (l : Str) : trimL (trimR l) = trimR (trimL l) := by
  induction l with
  | nil => rfl
  | cons c cs ih =>
    by_cases hw : isWS c
    · have h1 : trimL (c :: cs) = trimL cs := by
        rw [trimL, List.dropWhile_cons, if_pos hw]; rfl
      by_cases hz : trimR cs = []
      · have h2 : trimR (c :: cs) = [] := by rw [trimR_cons, if_pos ⟨hw, hz⟩]
        rw [h2, h1, ← ih, hz]
      · have h2 : trimR (c :: cs) = c :: trimR cs := by
          rw [trimR_cons, if_neg (fun h => hz h.2)]
        rw [h2, h1, ← ih]
        rw [trimL, List.dropWhile_cons, if_pos hw]
        rfl
    · have h1 : trimL (c :: cs) = c :: cs := by
        rw [trimL, List.dropWhile_cons, if_neg (by simpa using hw)]
      have h2 : trimR (c :: cs) = c :: trimR cs := by
        rw [trimR_cons, if_neg (fun h => hw h.1)]
      rw [h1, h2]
      rw [trimL, List.dropWhile_cons, if_neg (by simpa using hw)]

theorem trimChars_trimL (l : Str) : trimChars (trimL l) = trimChars l := by
  rw [trimChars, trimChars, trimL_trimR_comm (trimL l), trimL_trimL, ← trimL_trimR_comm]

theorem trimChars_trimR (l : Str) : trimChars (trimR l) = trimChars l := by
  rw [trimChars, trimChars, trimR_trimR]

theorem map_trimChars_modifyHead (gs : List Str) :
    (gs.modifyHead trimL).map trimChars = gs.map trimChars := by
  cases gs with
  | nil => rfl
  | cons g t => simp [List.modifyHead, trimChars_trimL]

theorem map_trimChars_modLast (gs : List Str) :
    (modLast trimR gs).map trimChars = gs.map trimChars := by
  induction gs with
  | nil => rfl
  | cons g t ih =>
    cases t with
    | nil => simp [modLast_single, trimChars_trimR]
    | cons g2 t2 =>
      rw [modLast_cons₂]
      simpa using ih

/-- Stripping the whole string before splitting changes only whitespace that
segment-level stripping removes anyway: the stripped segments coincide. -/
theorem map_trim_split_trim (sep : Char) (l : Str) (hsep : isWS sep = false) :
    (splitOnChar sep (trimChars l)).map trimChars = (splitOnChar sep l).map trimChars := by
  rw [trimChars, splitOnChar_trimL sep (trimR l) hsep, map_trimChars_modifyHead,
    splitOnChar_trimR sep l hsep, map_trimChars_modLast]

theorem ruleKeywords_trimChars (seg : Str) :
    ruleKeywords (trimChars seg) = ruleKeywords seg := by
  rw [ruleKeywords, ruleKeywords, map_trim_split_trim ',' seg (by decide)]

theorem parseParts_eq_specSegs (parts segs : List Str)
    (h : parts.map trimChars = segs.map trimChars) :
    parseParts parts = specSegs segs := by
  rcases parts with _ | ⟨p0, _ | ⟨p1, _ | ⟨p2, _ | ⟨p3, pt⟩⟩⟩⟩ <;>
    rcases segs with _ | ⟨a, _ | ⟨b, _ | ⟨c, _ | ⟨d, st⟩⟩⟩⟩ <;>
      simp_all [parseParts, specSegs, ruleKeywords_trimChars]

/-- **C7.** `parse` succeeds exactly on well-formed rule text and
round-trips the three trimmed logical fields: the embedded `parse_rule`
(which pre-strips the whole rule text before splitting on `'|'`, as the
source does) coincides with `specParse`, the parser described by the
claim (split the raw text on `'|'` into exactly 3 segments that must be
non-empty after trimming, with at least one non-empty comma-separated
keyword in the middle segment; on success the fields are the trimmed
segments and the trimmed keyword list, otherwise no Rule is produced). -/
theorem parse_rule_eq_specParse (s : Str) : parse_rule s = specParse s :=
  parseParts_eq_specSegs _ _ (map_trim_split_trim '|' s (by decide))
/-! ### Matcher lemmas (claims C8, C5) -/

theorem startsWith_iff (kw text : Str) : startsWith text kw = true ↔ kw <+: text := by
  induction kw generalizing text with
  | nil => cases text <;> simp [startsWith]
  | cons k ks ih =>
    cases text with
    | nil => simp [startsWith]
    | cons c cs =>
      rw [show startsWith (c :: cs) (k :: ks) = (decide (c = k) && startsWith cs ks) from rfl]
      simp only [Bool.and_eq_true, decide_eq_true_eq, ih, List.cons_prefix_cons]
      constructor <;> rintro ⟨h1, h2⟩ <;> exact ⟨h1.symm, h2⟩

theorem strContains_iff (text kw : Str) :
    strContains text kw = true ↔ kw <:+: text := by
  induction text with
  | nil => simp [strContains]
  | cons c rest ih =>
    rw [strContains]
    simp [startsWith_iff, ih, List.infix_cons_iff]

theorem contains_iff_mem (l : List Str) (x : Str) : l.contains x = true ↔ x ∈ l := by
  simp [List.contains, List.elem_iff]

theorem check_keywords_mode0 (M : RegexModel) (text : Str) (kws : List Str)
    (timeout : ℚ) :
    check_keywords M text kws 0 timeout
      = kws.find? (fun kw => strContains text kw) := by
  induction kws with
  | nil => rfl
  | cons kw rest ih =>
    rw [check_keywords, List.find?_cons]
    have hb : kwBody M text kw 0 timeout
        = .ok (if strContains text kw then some kw else none) := by
      rw [kwBody, if_pos rfl]
    rw [hb]
    cases h : strContains text kw <;> simp [h, ih]

theorem check_keywords_mode1 (M : RegexModel) (text : Str) (kws : List Str)
    (timeout : ℚ) :
    check_keywords M text kws 1 timeout
      = kws.find? (fun kw => (pyWords text).contains kw) := by
  induction kws with
  | nil => rfl
  | cons kw rest ih =>
    rw [check_keywords, List.find?_cons]
    have hb : kwBody M text kw 1 timeout
        = .ok (if (pyWords text).contains kw then some kw else none) := by
      rw [kwBody, if_neg (by decide : ¬ ((1:ℤ) = 0)), if_pos rfl]
    rw [hb]
    cases h : (pyWords text).contains kw <;> simp [h, ih]

/-- **C8.**  `check_keywords` iterates the keywords in definition order
and returns the first match (`List.find?` is exactly first-match-wins):
in fuzzy mode (0) a keyword matches iff it is a contiguous case-sensitive
substring of the text (`<:+:`), and in exact mode (1) iff it is a member
of the tokens obtained by splitting the text on contiguous whitespace
runs (`pyWords`), so a substring occurrence that is not a whole token
does not match. -/
theorem matcher_modes (M : RegexModel) (text : Str) (kws : List Str)
    (timeout : ℚ) :
    check_keywords M text kws 0 timeout
      = kws.find? (fun kw => decide (kw <:+: text))
  ∧ check_keywords M text kws 1 timeout
      = kws.find? (fun kw => decide (kw ∈ pyWords text)) := by
  constructor
  · rw [check_keywords_mode0]
    congr 1
    funext kw
    rw [Bool.eq_iff_iff, decide_eq_true_iff]
    exact strContains_iff text kw
  · rw [check_keywords_mode1]
    congr 1
    funext kw
    rw [Bool.eq_iff_iff, decide_eq_true_iff]
    exact contains_iff_mem (pyWords text) kw

theorem kwBody_no_match (M : RegexModel) (text : Str) (timeout : ℚ) (kw : Str)
    (h : M.valid kw = false ∨ (M.search kw text).raises = true) :
    ∀ k, kwBody M text kw 2 timeout ≠ Except.ok (some k) := by
  intro k hk
  rw [kwBody, if_neg (by decide : ¬ ((2:ℤ) = 0)), if_neg (by decide : ¬ ((2:ℤ) = 1)),
    if_pos rfl] at hk
  by_cases hv : M.valid kw = false
  · rw [if_pos hv] at hk
    exact Option.noConfusion (Except.ok.inj hk)
  · rw [if_neg hv] at hk
    rcases h with h | h
    · exact hv h
    · by_cases hto : alarmSecs timeout ≠ 0 ∧ (alarmSecs timeout : ℚ) ≤ (M.search kw text).time
      · rw [if_pos hto] at hk
        simp at hk
      · rw [if_neg hto, if_pos h] at hk
        simp at hk

/-- **C5.**  In regex mode, a keyword that fails to compile
(`valid = false`, skipped after the `PatternValidator` check) or whose
evaluation raises a runtime error (caught by the per-keyword
try/except) is treated as non-matching for that keyword only: the result
of `check_keywords` is exactly the result of evaluating the remaining
keywords, wherever the bad keyword sits in the list, and — the function
being total — no exception reaches the caller. -/
theorem regex_error_isolated (M : RegexModel) (text : Str) (timeout : ℚ)
    (pre post : List Str) (kw : Str)
    (h : M.valid kw = false ∨ (M.search kw text).raises = true) :
    check_keywords M text (pre ++ kw :: post) 2 timeout
      = check_keywords M text (pre ++ post) 2 timeout := by
  induction pre with
  | nil =>
    simp only [List.nil_append]
    rw [check_keywords]
    rcases hres : kwBody M text kw 2 timeout with e | o
    · rfl
    · rcases o with _ | k
      · rfl
      · exact absurd hres (kwBody_no_match M text timeout kw h k)
  | cons p ps ih =>
    simp only [List.cons_append]
    rw [check_keywords]
    conv_rhs => rw [check_keywords]
    rcases hres : kwBody M text p 2 timeout with e | o
    · exact ih
    · rcases o with _ | k
      · exact ih
      · rfl

/-- Witness for C5 at a concrete input: the invalid pattern `"("` in the
middle of a keyword list is skipped and the remaining keyword still
matches. -/
theorem regex_error_isolated_witness :
    (Mbad.valid "(".data = false ∨ (Mbad.search "(".data "x 错误7".data).raises = true)
  ∧ check_keywords Mbad "x 错误7".data ([] ++ "(".data :: ["错误7".data]) 2 1
      = check_keywords Mbad "x 错误7".data ([] ++ ["错误7".data]) 2 1 :=
  ⟨Or.inl (by decide),
   regex_error_isolated Mbad "x 错误7".data 1 [] ["错误7".data] "(".data
     (Or.inl (by decide))⟩

/-! ### ThrottleStore lemmas (claims C2, C10, C1) -/

theorem floatParse_nil : floatParse [] = none := rfl

theorem floatParse_pyFloatStr_1000 : floatParse (pyFloatStr 1000) = some 1000 := by
  rw [show pyFloatStr 1000 = "1000.0".data from by decide]
  simp [floatParse, floatParseCore, natOfDigits, isDigit]

theorem get_set_roundtrip (store : Str → Option Str) (k k2 : Str) (t : ℚ)
    (hk : notifyTimeKey k2 = notifyTimeKey k)
    (hrt : floatParse (pyFloatStr t) = some t) :
    get_last_notify_time (set_last_notify_time store k t) k2 = .ok t := by
  have hne : pyFloatStr t ≠ [] := by
    intro h0
    rw [h0, floatParse_nil] at hrt
    exact Option.noConfusion hrt
  have hstore : set_last_notify_time store k t (notifyTimeKey k2)
      = some (pyFloatStr t) := by
    rw [set_last_notify_time, hk, if_pos rfl]
  rw [get_last_notify_time, hstore]
  show (if pyFloatStr t = [] then Except.ok 0
    else match floatParse (pyFloatStr t) with
      | some q => Except.ok q
      | none => Except.error PyExc.valueError) = Except.ok t
  rw [if_neg hne, hrt]

/-- **C2** (counterexample).  The stored value `"abc"` is unparsable:
`get_last_notify_time` raises `ValueError` (it does NOT default to `0`
as the claim states — the default applies only to an absent or empty
value).  Also, with no record at all the gate at `now = 30`, `I = 60`
does not fire (the code treats "no record" as `lastFired = 0`, so it
fires only when `now ≥ I`), while the claim's "no record ⇒ fires"
disjunct says it should. -/
theorem throttle_claim_counterexample :
    get_last_notify_time storeBad "a".data = .error .valueError
  ∧ get_last_notify_time storeBad "a".data ≠ .ok 0
  ∧ get_last_notify_time (fun _ => none) "a".data = .ok 0
  ∧ shouldFire 0 30 60 = false := by
  refine ⟨by decide, by decide, by decide, ?_⟩
  simp only [shouldFire, Bool.not_eq_false, decide_eq_true_eq]
  norm_num

/-- **C2** (amended).  The code's throttle semantics: the value read back
for a key defaults to `0` exactly when the stored value is absent or
empty (so "no record" behaves as `lastFired = 0` and the gate then fires
iff `now ≥ I`, not unconditionally); a non-empty stored value that parses
yields its value, and an unparsable one raises `ValueError` (which
propagates to the dispatcher's outer handler) instead of defaulting to
`0`; values are recorded as decimal strings and round-trip; the gate
allows iff `now - lastFired ≥ I`; after `record(k, t0)` the gate at
`t0+30` with `I = 60` is closed and at `t0+61` it is open. -/
theorem throttle_semantics (store : Str → Option Str) (k : Str) (t0 : ℚ)
    (hrt : floatParse (pyFloatStr t0) = some t0) :
    (store (notifyTimeKey k) = none → get_last_notify_time store k = .ok 0)
  ∧ (store (notifyTimeKey k) = some [] → get_last_notify_time store k = .ok 0)
  ∧ (∀ s q, store (notifyTimeKey k) = some s → s ≠ [] → floatParse s = some q →
      get_last_notify_time store k = .ok q)
  ∧ (∀ s, store (notifyTimeKey k) = some s → s ≠ [] → floatParse s = none →
      get_last_notify_time store k = .error .valueError)
  ∧ get_last_notify_time (set_last_notify_time store k t0) k = .ok t0
  ∧ (∀ last now interval, shouldFire last now interval = true
      ↔ (interval : ℚ) ≤ now - last)
  ∧ shouldFire t0 (t0 + 30) 60 = false
  ∧ shouldFire t0 (t0 + 61) 60 = true := by
  refine ⟨?_, ?_, ?_, ?_, get_set_roundtrip store k k t0 rfl hrt, ?_, ?_, ?_⟩
  · intro h
    rw [get_last_notify_time, h]
  · intro h
    rw [get_last_notify_time, h]
    rfl
  · intro s q hs hne hp
    rw [get_last_notify_time, hs]
    show (if s = [] then Except.ok 0
      else match floatParse s with
        | some q => Except.ok q
        | none => Except.error PyExc.valueError) = Except.ok q
    rw [if_neg hne, hp]
  · intro s hs hne hp
    rw [get_last_notify_time, hs]
    show (if s = [] then Except.ok 0
      else match floatParse s with
        | some q => Except.ok q
        | none => Except.error PyExc.valueError) = Except.error PyExc.valueError
    rw [if_neg hne, hp]
  · intro last now interval
    simp [shouldFire, not_lt]
  · simp only [shouldFire, Bool.not_eq_false, decide_eq_true_eq]
    norm_num
  · simp only [shouldFire, Bool.not_eq_true, decide_eq_false_iff_not]
    norm_num

/-- Witness for C2's amended theorem at `t0 = 1000`, key `"a"`, empty
store: the recorded decimal string round-trips, and reading after
recording returns the recorded time. -/
theorem throttle_semantics_witness :
    floatParse (pyFloatStr 1000) = some 1000
  ∧ get_last_notify_time
      (set_last_notify_time (fun _ => none) "a".data 1000) "a".data = .ok 1000 :=
  ⟨floatParse_pyFloatStr_1000,
   (throttle_semantics (fun _ => none) "a".data 1000
      floatParse_pyFloatStr_1000).2.2.2.2.1⟩

/-- **C10.**  The throttle-key derivation is not injective: the distinct
channel pairs `("a_b", "c")` and `("a", "b_c")` derive the same key
`"a_b_c"`, so after a notification for the first pair records time 1000,
the throttle read for the second pair sees `lastFired = 1000` and its
gate at time 1030 with a 60 s interval is closed: the two rules share one
throttle bucket and suppress each other's notifications. -/
theorem rule_key_collision :
    rule_key "a_b".data "c".data = rule_key "a".data "b_c".data
  ∧ ("a_b".data, "c".data) ≠ (("a".data : Str), "b_c".data)
  ∧ get_last_notify_time
      (set_last_notify_time (fun _ => none) (rule_key "a_b".data "c".data) 1000)
      (rule_key "a".data "b_c".data) = .ok 1000
  ∧ shouldFire 1000 1030 60 = false := by
  refine ⟨by decide, by decide, ?_, ?_⟩
  · exact get_set_roundtrip (fun _ => none) (rule_key "a_b".data "c".data)
      (rule_key "a".data "b_c".data) 1000 (by decide) floatParse_pyFloatStr_1000
  · simp only [shouldFire, Bool.not_eq_false, decide_eq_true_eq]
    norm_num

/-- **C1** (code bug).  The source's SIGALRM scheme cannot bound the
per-keyword search time at all: CPython defers Python-level signal
handlers during C-level regex matching, so `pattern.search` runs to
completion and the elapsed time for a pathological keyword is the full
search time — here 10^6 s, far beyond `timeoutSeconds + 100 s` of
overhead for `timeoutSeconds = 0.5` and `= 1` alike — never
`timeoutSeconds + bounded overhead`.  On top of that,
`signal.alarm(int(timeout))` truncates: with `timeout = 0.5` it is
`signal.alarm(0)`, which cancels the alarm outright, so not even a late
`TimeoutError` is raised and the search's own (here non-matching) result
is used, whereas with `timeout = 1` an alarm is scheduled and the
deferred handler at least downgrades the keyword's eventual outcome to
`TimeoutError` — after the full 10^6 s have already been spent. -/
theorem regex_timeout_unbounded :
    alarmSecs (1/2) = 0
  ∧ alarmSecs 1 = 1
  ∧ regexKwElapsed Mpatho "aaaa".data "(a+)+b".data = 1000000
  ∧ ¬ regexKwElapsed Mpatho "aaaa".data "(a+)+b".data ≤ 1/2 + 100
  ∧ ¬ regexKwElapsed Mpatho "aaaa".data "(a+)+b".data ≤ 1 + 100
  ∧ kwBody Mpatho "aaaa".data "(a+)+b".data 2 (1/2) = .ok none
  ∧ kwBody Mpatho "aaaa".data "(a+)+b".data 2 1 = .error .timeoutError := by
  have hvalid : ¬ (Mpatho.valid "(a+)+b".data = false) := by decide
  have ha : alarmSecs (1/2 : ℚ) = 0 := by
    rw [alarmSecs, pyIntTrunc, if_neg (by norm_num : ¬ (1/2 : ℚ) < 0)]
    norm_num
  have ha1 : alarmSecs (1 : ℚ) = 1 := by
    rw [alarmSecs, pyIntTrunc, if_neg (by norm_num : ¬ (1 : ℚ) < 0)]
    norm_num
  have he : regexKwElapsed Mpatho "aaaa".data "(a+)+b".data = 1000000 := by
    rw [regexKwElapsed, if_neg hvalid]
    rfl
  have hb1 : kwBody Mpatho "aaaa".data "(a+)+b".data 2 (1/2) = .ok none := by
    rw [kwBody, if_neg (by decide : ¬ ((2:ℤ) = 0)), if_neg (by decide : ¬ ((2:ℤ) = 1)),
      if_pos rfl, if_neg hvalid, if_neg (fun hc => hc.1 ha),
      if_neg (by decide : ¬ ((Mpatho.search "(a+)+b".data "aaaa".data).raises = true)),
      if_neg (by decide : ¬ ((Mpatho.search "(a+)+b".data "aaaa".data).found = true))]
  have hcond : alarmSecs 1 ≠ 0
      ∧ ((alarmSecs 1 : ℕ) : ℚ) ≤ (Mpatho.search "(a+)+b".data "aaaa".data).time := by
    rw [ha1, show (Mpatho.search "(a+)+b".data "aaaa".data).time = 1000000 from rfl]
    refine ⟨by norm_num, by norm_num⟩
  have hb2 : kwBody Mpatho "aaaa".data "(a+)+b".data 2 1 = .error .timeoutError := by
    rw [kwBody, if_neg (by decide : ¬ ((2:ℤ) = 0)), if_neg (by decide : ¬ ((2:ℤ) = 1)),
      if_pos rfl, if_neg hvalid, if_pos hcond]
  refine ⟨ha, ha1, he, ?_, ?_, hb1, hb2⟩
  · rw [he]
    norm_num
  · rw [he]
    norm_num

/-! ### Dispatcher theorems (claims C6, C4, C3) -/

/-- **C6.**  When a rule matches and passes the throttle gate: if
delivery fails, the inner `except` leaves the dispatcher state — in
particular the throttle record — unchanged (so a later message can retry
sooner); if delivery succeeds, the state gains the sent notification and
the throttle record for the rule's key is set to `now`.  The last-fire
timestamp is therefore updated only after a successful delivery. -/
theorem delivery_failure_throttle (M : RegexModel) (cfg : Config)
    (sendOk : Str → Str → Bool) (ctx : Ctx) (msgText : Str) (now : ℚ)
    (nowStr : Str) (st : DState) (r monitor notify : Str) (kws : List Str)
    (kw : Str) (last : ℚ) (txt : Str)
    (hparse : parse_rule r = some (monitor, kws, notify))
    (hchan : monitor = ctx.chat_key)
    (hmatch : check_keywords M msgText kws cfg.MATCH_MODE cfg.REGEX_TIMEOUT = some kw)
    (hlast : get_last_notify_time st.store (rule_key monitor notify) = .ok last)
    (hgate : ¬ now - last < (cfg.NOTIFY_INTERVAL : ℚ))
    (hfmt : pyFormat
        [("channel_name".data, pyOr ctx.channel_name "未知频道".data),
         ("channel_id".data, pyOr ctx.channel_id "未知".data),
         ("keyword".data, kw),
         ("content".data, msgText.take 200),
         ("time".data, nowStr)] cfg.NOTIFY_TEMPLATE = .ok txt) :
    (sendOk notify txt = false →
      ruleStep M cfg sendOk ctx msgText now nowStr st r = .ok st)
  ∧ (sendOk notify txt = true →
      ruleStep M cfg sendOk ctx msgText now nowStr st r =
        .ok ⟨set_last_notify_time st.store (rule_key monitor notify) now,
             st.sent ++ [(notify, txt)]⟩) := by
  have hstep : ruleStep M cfg sendOk ctx msgText now nowStr st r =
      (if sendOk notify txt then
        Except.ok ⟨set_last_notify_time st.store (rule_key monitor notify) now,
                   st.sent ++ [(notify, txt)]⟩
       else .ok st) := by
    simp only [ruleStep, hparse]
    rw [if_neg (show ¬ monitor ≠ ctx.chat_key from fun hne => hne hchan)]
    simp only [hmatch, hlast]
    rw [if_neg hgate]
    simp only [hfmt]
  constructor
  · intro hs
    rw [hstep, if_neg (by simp [hs])]
  · intro hs
    rw [hstep, if_pos hs]

/-- Witness for C6 at a concrete input: the rule `chatA|hello|chatB`
matches `"say hello"`, the gate is open (empty store), the template
renders, and with a failing send the dispatcher state is unchanged. -/
theorem delivery_failure_throttle_witness :
    parse_rule "chatA|hello|chatB".data
      = some ("chatA".data, ["hello".data], "chatB".data)
  ∧ check_keywords Mnone "say hello".data ["hello".data] cfgAB.MATCH_MODE
      cfgAB.REGEX_TIMEOUT = some "hello".data
  ∧ ruleStep Mnone cfgAB (fun _ _ => false) ctxA "say hello".data 1000 "t".data
      st0 "chatA|hello|chatB".data = .ok st0 := by
  have h1 : parse_rule "chatA|hello|chatB".data
      = some ("chatA".data, ["hello".data], "chatB".data) := by decide
  have h2 : check_keywords Mnone "say hello".data ["hello".data] cfgAB.MATCH_MODE
      cfgAB.REGEX_TIMEOUT = some "hello".data := by decide
  have h3 : get_last_notify_time st0.store (rule_key "chatA".data "chatB".data)
      = .ok 0 := by decide
  have h4 : ¬ (1000:ℚ) - 0 < (cfgAB.NOTIFY_INTERVAL : ℚ) := by
    norm_num [cfgAB]
  have h5 : pyFormat
      [("channel_name".data, pyOr ctxA.channel_name "未知频道".data),
       ("channel_id".data, pyOr ctxA.channel_id "未知".data),
       ("keyword".data, "hello".data),
       ("content".data, ("say hello".data : Str).take 200),
       ("time".data, "t".data)] cfgAB.NOTIFY_TEMPLATE = .ok "m".data := by decide
  exact ⟨h1, h2,
    (delivery_failure_throttle Mnone cfgAB (fun _ _ => false) ctxA
      "say hello".data 1000 "t".data st0 "chatA|hello|chatB".data
      "chatA".data "chatB".data ["hello".data] "hello".data 0 "m".data
      h1 rfl h2 h3 h4 h5).1 rfl⟩

/-- **C4.**  The outer try/except of the message handler: for every
configuration, oracle, context, message and store, the handler returns
`None` — "do not block the message".  Rule-parse failures are skipped,
matcher errors are caught per keyword inside `check_keywords`, a
throttle-read `ValueError` or composer `KeyError` aborts the rule loop
but is swallowed by the outer `except`, and delivery failures are caught
by the inner `except`; the only externally visible failure mode is that a
notification is not sent.  The second and third conjuncts exhibit the
swallowing non-vacuously: with an unparsable stored timestamp under the
matching rule's throttle key the loop body really does raise
(`runRules` reports an escaped exception) and the handler still returns
`None`. -/
theorem handler_never_blocks (M : RegexModel) (cfg : Config)
    (sendOk : Str → Str → Bool) (ctx : Ctx) (msgText : Str) (now : ℚ)
    (nowStr : Str) (store : Str → Option Str) :
    (handle_user_message M cfg sendOk ctx msgText now nowStr store).1 = none
  ∧ (runRules Mnone cfgAB (fun _ _ => true) ctxA "say hello".data 1000 "t".data
      cfgAB.MONITOR_RULES ⟨storeBadAB, []⟩).2 = true
  ∧ (handle_user_message Mnone cfgAB (fun _ _ => true) ctxA "say hello".data
      1000 "t".data storeBadAB).1 = none := by
  refine ⟨?_, by decide, by decide⟩
  rw [handle_user_message]
  split <;> rfl

/-- **C3** (code bug).  The dispatcher never consults the stored
temporary rules: `handle_user_message` iterates only
`config.MONITOR_RULES`, and no code path reads the `"temp_rules"` slot
that `add_temp_monitor_rule` writes.  Concretely: adding the temporary
rule `chatA|hello|chatB` succeeds and stores it; that rule text parses
and its keyword matches the message `"say hello"` under the active
configuration; the handler runs with the temporary rule present in its
store (last conjunct) — yet no notification is sent. -/
theorem temp_rule_never_fires :
    tempAdded = (.ok, ["chatA|hello|chatB".data])
  ∧ parse_rule "chatA|hello|chatB".data
      = some ("chatA".data, ["hello".data], "chatB".data)
  ∧ check_keywords Mnone "say hello".data ["hello".data] cfgNoStatic.MATCH_MODE
      cfgNoStatic.REGEX_TIMEOUT = some "hello".data
  ∧ (handle_user_message Mnone cfgNoStatic (fun _ _ => true) ctxA
      "say hello".data 1000 "t".data storeWithTemp).2.sent = []
  ∧ (handle_user_message Mnone cfgNoStatic (fun _ _ => true) ctxA
      "say hello".data 1000 "t".data storeWithTemp).2.store "temp_rules".data
      = some "[\"chatA|hello|chatB\"]".data :=
  ⟨by decide, by decide, by decide, by decide, by decide⟩

/-! ### Temporary-rule theorems (claim C9) -/

/-- **C9.**  `addTemporary` idempotence and the no-duplicate invariant:
under valid arguments (non-empty keyword list; in regex mode every
keyword validates) whose composed rule text is not yet stored, the first
call succeeds and appends the composed text, an identical second call
answers `AlreadyExists` and leaves the list unchanged, the list stays
duplicate-free, and in general any add whose composed text is already
present is rejected with the list unchanged. -/
theorem add_temp_idempotent (valid : Str → Bool) (matchMode : ℤ)
    (temp : List Str) (m kw n : Str)
    (hkw : ruleKeywords kw ≠ [])
    (hval : matchMode = 2 → (ruleKeywords kw).filter (fun k => valid k = false) = [])
    (hnot : composedRule m kw n ∉ temp)
    (hnodup : temp.Nodup) :
    add_temp_monitor_rule valid matchMode temp m kw n
      = (.ok, temp ++ [composedRule m kw n])
  ∧ add_temp_monitor_rule valid matchMode (temp ++ [composedRule m kw n]) m kw n
      = (.alreadyExists, temp ++ [composedRule m kw n])
  ∧ (temp ++ [composedRule m kw n]).Nodup
  ∧ (∀ temp2 : List Str, composedRule m kw n ∈ temp2 →
      add_temp_monitor_rule valid matchMode temp2 m kw n = (.alreadyExists, temp2)) := by
  have hinvalid :
      (if matchMode = 2 then (ruleKeywords kw).filter (fun k => valid k = false)
       else []) = [] := by
    by_cases hm : matchMode = 2
    · rw [if_pos hm]
      exact hval hm
    · rw [if_neg hm]
  have hstep : ∀ t2 : List Str, add_temp_monitor_rule valid matchMode t2 m kw n
      = (if composedRule m kw n ∈ t2 then (.alreadyExists, t2)
         else (.ok, t2 ++ [composedRule m kw n])) := by
    intro t2
    simp only [add_temp_monitor_rule]
    rw [if_neg hkw, hinvalid, if_neg (fun h => h rfl)]
  refine ⟨?_, ?_, ?_, ?_⟩
  · rw [hstep temp, if_neg hnot]
  · rw [hstep (temp ++ [composedRule m kw n]),
      if_pos (List.mem_append_right temp (List.mem_singleton_self _))]
  · simp [List.nodup_append, hnodup, hnot]
  · intro t2 ht2
    rw [hstep t2, if_pos ht2]

/-- Witness for C9 at a concrete input: adding `a|x|b` to an empty
temporary list yields `ok`, and adding it again yields `AlreadyExists`
with the list unchanged. -/
theorem add_temp_idempotent_witness :
    ruleKeywords "x".data ≠ []
  ∧ composedRule "a".data "x".data "b".data ∉ ([] : List Str)
  ∧ add_temp_monitor_rule (fun _ => true) 0 [] "a".data "x".data "b".data
      = (.ok, [composedRule "a".data "x".data "b".data])
  ∧ add_temp_monitor_rule (fun _ => true) 0
      [composedRule "a".data "x".data "b".data] "a".data "x".data "b".data
      = (.alreadyExists, [composedRule "a".data "x".data "b".data]) := by
  have h1 : ruleKeywords "x".data ≠ [] := by decide
  have h2 : (0:ℤ) = 2 →
      (ruleKeywords "x".data).filter (fun k => (fun _ => true) k = false) = [] := by
    decide
  have h3 : composedRule "a".data "x".data "b".data ∉ ([] : List Str) := by decide
  have h := add_temp_idempotent (fun _ => true) 0 [] "a".data "x".data "b".data
    h1 h2 h3 List.nodup_nil
  exact ⟨h1, h3, by simpa using h.1, by simpa using h.2.1⟩

end KeywordMonitor
